import Mathlib

/-!
# Verification of the coffee expense tracker CLI

A shallow embedding of `src/main.rs`: a three-command CLI (`add`,
`daily-total`, `export`) over a single SQLite table `orders`, exporting to
CSV via a serde-backed writer. Machine `f64` prices are modelled as exact
rationals; the SQLite calls that can fail carry explicit fault flags; the
`expect` panics of the source are modelled as an `Except` abort.
-/

namespace Tracker

/-- One recorded purchase, mirroring `struct Order` in `src/main.rs`:
`item_name` and `date` are the stored TEXT columns, `quantity` the stored
INTEGER (`u32`), and `price` the stored REAL (`f64`), modelled as an exact
rational. -/
structure Order where
  item_name : String
  quantity : Nat
  price : Rat
  date : String
deriving DecidableEq

/-- `Order::total_cost`: `self.quantity as f64 * self.price`. -/
def Order.total_cost (o : Order) : Rat := (o.quantity : Rat) * o.price

/-- The on-disk database file `timhortons_tracker.db`: whether the `orders`
table exists yet, and its rows in rowid (insertion) order. -/
structure DbFile where
  hasOrdersTable : Bool
  orders : List Order
deriving DecidableEq

/-- `Connection::open`: opens the database file, creating an empty one when
it is absent. -/
def connectionOpen (f : Option DbFile) : DbFile := f.getD ⟨false, []⟩

/-- The `CREATE TABLE IF NOT EXISTS orders (...)` statement executed by
`init_db`: a no-op when the table already exists. -/
def createTableIfNotExists (f : DbFile) : DbFile :=
  if f.hasOrdersTable then f else { hasOrdersTable := true, orders := [] }

/-- `init_db`: open (creating if absent) the store and ensure the `orders`
table exists. -/
def init_db (f : Option DbFile) : DbFile := createTableIfNotExists (connectionOpen f)

/-- A connection as seen by the repository functions: the stored rows plus
fault flags recording whether the underlying SQLite calls fail
(`prepare`, and execution of a prepared statement). -/
structure Conn where
  orders : List Order
  prepareFails : Bool
  queryFails : Bool
deriving DecidableEq

/-- `add_order`: `INSERT INTO orders (item_name, quantity, price, date)
VALUES (?1, ?2, ?3, ?4)`; SQLite appends the row under the next rowid. -/
def add_order (orders : List Order) (item : String) (quantity : Nat) (price : Rat)
    (date : String) : List Order :=
  orders ++ [⟨item, quantity, price, date⟩]

/-- SQL `SELECT SUM(quantity * price) FROM orders WHERE date = ?1`: the
result column is NULL (`none`) when no row matches the exact string
comparison, else the sum over the matching rows. -/
def sqlSumQuery (orders : List Order) (date : String) : Option Rat :=
  let rows := orders.filter (fun o => o.date = date)
  if rows.isEmpty then none
  else some ((rows.map (fun o => (o.quantity : Rat) * o.price)).sum)

/-- The errors `rusqlite` can return from `query_row`: reading a NULL column
as `f64`, or a failure of the query execution itself. -/
inductive RusqliteErr where
  | invalidColumnType
  | stepFailure
deriving DecidableEq

/-- `row.get(0)` into an `f64`: fails with `InvalidColumnType` when the
column is NULL. -/
def rowGetF64 : Option Rat → Except RusqliteErr Rat
  | none => Except.error RusqliteErr.invalidColumnType
  | some v => Except.ok v

/-- The `stmt.query_row(params![date], |row| row.get(0))` call in
`calculate_daily_total`: a connection-level execution failure yields an
error; otherwise the NULL-able SUM column is read back as an `f64`. -/
def query_row_sum (c : Conn) (date : String) : Except RusqliteErr Rat :=
  if c.queryFails then Except.error RusqliteErr.stepFailure
  else rowGetF64 (sqlSumQuery c.orders date)

/-- Rust's `Result::unwrap_or`: the value on success, the default on any
error. -/
def unwrapOr (e : Except RusqliteErr Rat) (d : Rat) : Rat :=
  match e with
  | Except.ok v => v
  | Except.error _ => d

/-- An aborted process: an `expect` panicked with the given message. -/
structure Abort where
  msg : String
deriving DecidableEq

/-- `calculate_daily_total` with its fault behaviour:
`conn.prepare(...).expect("Failed to prepare statement.")` aborts the
process on a preparation failure, while the `query_row` result goes through
`unwrap_or(0.0)`, so every execution error becomes `0.0`. -/
def run_calculate_daily_total (c : Conn) (date : String) : Except Abort Rat :=
  if c.prepareFails then Except.error ⟨"Failed to prepare statement."⟩
  else Except.ok (unwrapOr (query_row_sum c date) 0)

/-- `calculate_daily_total` on a healthy connection. -/
def calculate_daily_total (orders : List Order) (date : String) : Rat :=
  unwrapOr (query_row_sum ⟨orders, false, false⟩ date) 0

/-- Does the csv crate's default `QuoteStyle::Necessary` quote this field?
It quotes exactly when the field contains the delimiter, a double quote, or
a line-terminator character. -/
def needsQuote (f : List Char) : Bool :=
  f.any (fun c => c == ',' || c == '"' || c == '\n' || c == '\r')

/-- Escaping inside a quoted field: the csv crate doubles a double quote. -/
def escChar (c : Char) : List Char := if c = '"' then ['"', '"'] else [c]

/-- The escaped body of a quoted field. -/
def escBody : List Char → List Char
  | [] => []
  | c :: f => escChar c ++ escBody f

/-- The csv crate's encoding of one field. -/
def encodeField (f : List Char) : List Char :=
  if needsQuote f then '"' :: (escBody f ++ ['"']) else f

/-- Comma-join of the encoded fields of one record. -/
def joinFields : List (List Char) → List Char
  | [] => []
  | [f] => f
  | f :: fs => f ++ ',' :: joinFields fs

/-- One CSV record: the comma-joined encoded fields plus the `\n`
record terminator the csv writer appends. -/
def encodeRecord (fs : List (List Char)) : List Char :=
  joinFields (fs.map encodeField) ++ ['\n']

/-- The header row serde derives from `Order`'s field names, in declaration
order. -/
def headerFields : List (List Char) :=
  ["item_name".data, "quantity".data, "price".data, "date".data]

/-- Digits of `n` in base 10, most significant first, prepended to `acc`. -/
def natReprAux : Nat → List Char → List Char
  | 0, acc => acc
  | n + 1, acc => natReprAux ((n + 1) / 10) (Nat.digitChar ((n + 1) % 10) :: acc)
decreasing_by exact Nat.div_lt_self (Nat.succ_pos n) (by norm_num)

/-- Decimal rendering of a natural number. -/
def natRepr (n : Nat) : List Char := if n = 0 then ['0'] else natReprAux n []

/-- Decimal rendering of an integer. -/
def intRepr (i : Int) : List Char :=
  if i < 0 then '-' :: natRepr i.natAbs else natRepr i.natAbs

/-- Models the CSV serializer's default plain-text rendering of the stored
price: a sign, decimal digits and a decimal point — in particular it never
contains a delimiter, a quote or a line terminator. The exact digit string
is left unspecified by the program (`f64` written in the csv crate's
default numeric form). -/
def ratRepr (q : Rat) : List Char :=
  if q.den = 1 then intRepr q.num else intRepr q.num ++ '.' :: natRepr q.den

/-- The four CSV fields serde writes for one `Order`, in field-declaration
order: `item_name, quantity, price, date`. -/
def recordFields (o : Order) : List (List Char) :=
  [o.item_name.data, natRepr o.quantity, ratRepr o.price, o.date.data]

/-- The CSV text of a list of records (no header). -/
def recordsText : List Order → List Char
  | [] => []
  | o :: os => encodeRecord (recordFields o) ++ recordsText os

/-- The csv `Writer` buffer: whether the header row has been written yet,
and the text written so far. -/
structure CsvWriterState where
  wroteHeader : Bool
  out : List Char
deriving DecidableEq

/-- `wtr.serialize(order)`: with `has_headers` at its default, the writer
first writes the header row if it has not yet been written, then writes the
record. -/
def csvSerialize (st : CsvWriterState) (o : Order) : CsvWriterState :=
  let st1 := if st.wroteHeader then st
             else { wroteHeader := true, out := st.out ++ encodeRecord headerFields }
  { st1 with out := st1.out ++ encodeRecord (recordFields o) }

/-- The full text written by the serialize loop of `export_to_csv`. -/
def exportContent (orders : List Order) : List Char :=
  (orders.foldl csvSerialize ⟨false, []⟩).out

/-- The file system visible to the exporter: path to file content. -/
def FS : Type := String → Option (List Char)

/-- `File::create`: creates or truncates the target file. -/
def fileCreate (fs : FS) (p : String) : FS :=
  fun q => if q = p then some [] else fs q

/-- Writing to an open file appends to its current content. -/
def fileAppend (fs : FS) (p : String) (s : List Char) : FS :=
  fun q => if q = p then some (((fs q).getD []) ++ s) else fs q

/-- `export_to_csv` with its fault behaviour: aborts when the SELECT cannot
be prepared or its rows cannot be queried; otherwise `File::create`
truncates the target and the writer's text is written to it. -/
def export_to_csv (c : Conn) (filepath : String) (fs : FS) : Except Abort FS :=
  if c.prepareFails then Except.error ⟨"Failed to prepare statement."⟩
  else if c.queryFails then Except.error ⟨"Failed to query orders."⟩
  else Except.ok (fileAppend (fileCreate fs filepath) filepath (exportContent c.orders))

/-- Rust's `{:.2}` display of the model price: the value rounded to
hundredths, printed with exactly two digits after the decimal point. -/
def fmt2 (q : Rat) : String :=
  let cents : Int := round (q * 100)
  let a := cents.natAbs
  (if cents < 0 then "-" else "") ++ toString (a / 100) ++ "." ++
    (if a % 100 < 10 then "0" else "") ++ toString (a % 100)

/-- The parsed CLI surface: the three subcommands of `enum Commands`. -/
inductive Command where
  | add (item : String) (quantity : Nat) (price : Rat) (date : Option String)
  | dailyTotal (date : Option String)
  | exportCmd (filepath : String)

/-- The dispatch in `main`: `today` stands for
`Local::now().format("%Y-%m-%d")`, the current local date already formatted
`YYYY-MM-DD`. Returns the resulting stored rows and the line printed to
stdout. -/
def runCommand (cmd : Command) (orders : List Order) (today : String) :
    List Order × String :=
  match cmd with
  | Command.add item quantity price date =>
      let order_date := date.getD today
      (add_order orders item quantity price order_date,
       "Order added: " ++ item ++ " x" ++ toString quantity ++ " @ $" ++ fmt2 price
         ++ " on " ++ order_date)
  | Command.dailyTotal date =>
      let query_date := date.getD today
      (orders,
       "Total for " ++ query_date ++ ": $"
         ++ fmt2 (calculate_daily_total orders query_date))
  | Command.exportCmd filepath => (orders, "Orders exported to " ++ filepath)

/-- Running a sequence of tool invocations against the same store. -/
def runCommands (cmds : List Command) (orders : List Order) (today : String) :
    List Order :=
  cmds.foldl (fun os c => (runCommand c os today).1) orders

/-- A CSV reader for a single record: scans the characters, tracking whether
the position is inside quotes; `cur` collects the current field reversed and
`acc` the finished fields reversed. Succeeds exactly when the input is one
`\n`-terminated line. -/
def parseAux : List Char → Bool → List Char → List (List Char) →
    Option (List (List Char))
  | [], _, _, _ => none
  | '"' :: '"' :: r, true, cur, acc => parseAux r true ('"' :: cur) acc
  | '"' :: r, true, cur, acc => parseAux r false cur acc
  | c :: r, true, cur, acc => parseAux r true (c :: cur) acc
  | c :: r, false, cur, acc =>
      if c = '"' then parseAux r true cur acc
      else if c = ',' then parseAux r false [] (cur.reverse :: acc)
      else if c = '\n' then (if r.isEmpty then some ((cur.reverse :: acc).reverse) else none)
      else parseAux r false (c :: cur) acc

/-- Reading one CSV record back. -/
def parseRecord (s : List Char) : Option (List (List Char)) :=
  parseAux s false [] []

/-! ## The daily total -/

/-- On a healthy connection the daily total is the sum of `total_cost` over
the rows whose date string matches exactly: the NULL SUM of an empty match
set is turned into `0` by `unwrap_or(0.0)`, and the empty sum is also `0`. -/
theorem dailyTotal_eq_sum (orders : List Order) (date : String) :
    calculate_daily_total orders date
      = ((orders.filter (fun o => o.date = date)).map Order.total_cost).sum := by
  have h : calculate_daily_total orders date
      = unwrapOr (rowGetF64 (sqlSumQuery orders date)) 0 := rfl
  rw [h]
  by_cases he : (orders.filter (fun o => o.date = date)).isEmpty
  · rw [List.isEmpty_iff.mp he]
    simp [sqlSumQuery, he, rowGetF64, unwrapOr]
  · simp [sqlSumQuery, he, rowGetF64, unwrapOr]
    rfl

/-- C1: `calculate_daily_total` computes the sum of quantity × price over
exactly those rows whose date field is string-equal to the queried date, and
returns `0` when no row matches. -/
theorem daily_total_spec (orders : List Order) (date : String) :
    calculate_daily_total orders date
        = ((orders.filter (fun o => o.date = date)).map Order.total_cost).sum
  ∧ (orders.filter (fun o => o.date = date) = [] →
        calculate_daily_total orders date = 0) := by
  refine ⟨dailyTotal_eq_sum orders date, fun h => ?_⟩
  rw [dailyTotal_eq_sum orders date, h]
  rfl

/-- Witness for C1: the spec's own example `2*1.75 + 3*1.25 = 7.25`, and a
date with no matching rows. -/
theorem daily_total_spec_witness :
    calculate_daily_total
        [⟨"Coffee", 2, (7/4 : Rat), "2024-01-05"⟩, ⟨"Donut", 3, (5/4 : Rat), "2024-01-05"⟩]
        "2024-01-05" = (29/4 : Rat)
  ∧ calculate_daily_total [⟨"Coffee", 2, (7/4 : Rat), "2024-01-05"⟩] "2099-12-31" = 0 := by
  constructor
  · rw [(daily_total_spec
      [⟨"Coffee", 2, (7/4 : Rat), "2024-01-05"⟩, ⟨"Donut", 3, (5/4 : Rat), "2024-01-05"⟩]
      "2024-01-05").1]
    norm_num [List.filter, Order.total_cost]
  · exact (daily_total_spec [⟨"Coffee", 2, (7/4 : Rat), "2024-01-05"⟩] "2099-12-31").2
      (by decide)

/-! ## Adding a record -/

/-- The CSV text of an appended store splits at the append. -/
theorem recordsText_append (xs ys : List Order) :
    recordsText (xs ++ ys) = recordsText xs ++ recordsText ys := by
  induction xs with
  | nil => rfl
  | cons o os ih => simp [recordsText, ih]

/-- Once the header is written, the serialize loop just appends records. -/
theorem foldl_csvSerialize (os : List Order) (pre : List Char) :
    os.foldl csvSerialize ⟨true, pre⟩ = ⟨true, pre ++ recordsText os⟩ := by
  induction os generalizing pre with
  | nil => simp [recordsText]
  | cons o os ih => simp [csvSerialize, recordsText, ih, List.append_assoc]

/-- For a nonempty store the export text is the header record followed by
the records of the rows in store order. -/
theorem exportContent_eq (orders : List Order) (h : orders ≠ []) :
    exportContent orders = encodeRecord headerFields ++ recordsText orders := by
  cases orders with
  | nil => exact absurd rfl h
  | cons o os =>
      show (List.foldl csvSerialize ⟨false, []⟩ (o :: os)).out = _
      rw [List.foldl_cons]
      have h1 : csvSerialize ⟨false, []⟩ o
          = ⟨true, encodeRecord headerFields ++ encodeRecord (recordFields o)⟩ := by
        simp [csvSerialize]
      rw [h1, foldl_csvSerialize]
      simp [recordsText, List.append_assoc]

/-- C2: after `add_order`, the new row is stored with exactly the given
values, the export text contains its CSV record, and the daily total for its
date grows by quantity × price. -/
theorem add_then_observe (orders : List Order) (item : String) (quantity : Nat)
    (price : Rat) (date : String) :
    (⟨item, quantity, price, date⟩ : Order) ∈ add_order orders item quantity price date
  ∧ (∃ pre post, exportContent (add_order orders item quantity price date)
        = pre ++ encodeRecord (recordFields ⟨item, quantity, price, date⟩) ++ post)
  ∧ calculate_daily_total (add_order orders item quantity price date) date
      = calculate_daily_total orders date + (quantity : Rat) * price := by
  refine ⟨by simp [add_order], ?_, ?_⟩
  · refine ⟨encodeRecord headerFields ++ recordsText orders, [], ?_⟩
    rw [exportContent_eq _ (by simp [add_order]), add_order, recordsText_append]
    simp [recordsText, List.append_assoc]
  · rw [dailyTotal_eq_sum, dailyTotal_eq_sum, add_order, List.filter_append]
    simp [Order.total_cost]

/-! ## Error behaviour of the daily total -/

/-- C3 as stated is false: on a connection whose query execution fails
(statement preparation succeeding), `calculate_daily_total` does not abort —
`unwrap_or(0.0)` swallows the error and the call returns `0.0`. -/
theorem daily_total_query_failure_returns_zero :
    run_calculate_daily_total ⟨[⟨"Coffee", 1, 2, "2024-01-01"⟩], false, true⟩ "2024-01-01"
      = Except.ok 0 := rfl

/-- C3 amended: `calculate_daily_total` aborts only when statement
preparation fails; when preparation succeeds it always returns a value — the
matching-row sum when the query executes, and `0` both when no row matches
(the NULL SUM) and when the query execution itself fails. -/
theorem daily_total_error_handling (c : Conn) (date : String) :
    (c.prepareFails = true →
        run_calculate_daily_total c date = Except.error ⟨"Failed to prepare statement."⟩)
  ∧ (c.prepareFails = false → ∃ v, run_calculate_daily_total c date = Except.ok v)
  ∧ (c.prepareFails = false → c.queryFails = false →
        run_calculate_daily_total c date
          = Except.ok (calculate_daily_total c.orders date))
  ∧ (c.prepareFails = false → c.orders.filter (fun o => o.date = date) = [] →
        run_calculate_daily_total c date = Except.ok 0) := by
  refine ⟨fun h => by simp [run_calculate_daily_total, h],
          fun h => ⟨unwrapOr (query_row_sum c date) 0,
            by simp [run_calculate_daily_total, h]⟩,
          fun h1 h2 => ?_, fun h1 hf => ?_⟩
  · simp [run_calculate_daily_total, h1, calculate_daily_total, query_row_sum, h2]
  · cases hq : c.queryFails
    · simp [run_calculate_daily_total, h1, query_row_sum, hq, sqlSumQuery, hf,
        rowGetF64, unwrapOr]
    · simp [run_calculate_daily_total, h1, query_row_sum, hq, unwrapOr]

/-- Witness for C3 (amended): a failing preparation aborts; a healthy
connection with no matching rows yields `0`. -/
theorem daily_total_error_handling_witness :
    run_calculate_daily_total ⟨[], true, false⟩ "2024-01-01"
        = Except.error ⟨"Failed to prepare statement."⟩
  ∧ run_calculate_daily_total ⟨[], false, false⟩ "2024-01-01" = Except.ok 0 :=
  ⟨(daily_total_error_handling ⟨[], true, false⟩ "2024-01-01").1 rfl,
   (daily_total_error_handling ⟨[], false, false⟩ "2024-01-01").2.2.2 rfl rfl⟩

/-! ## Immutability of records -/

/-- One command at most appends to the stored rows. -/
theorem runCommand_fst (c : Command) (orders : List Order) (today : String) :
    ∃ tail, (runCommand c orders today).1 = orders ++ tail := by
  cases c with
  | add item q p d => exact ⟨[⟨item, q, p, d.getD today⟩], rfl⟩
  | dailyTotal d => exact ⟨[], (List.append_nil orders).symm⟩
  | exportCmd fp => exact ⟨[], (List.append_nil orders).symm⟩

/-- C5: no sequence of tool commands alters or removes a previously stored
order: every run only ever appends, leaving the existing rows in place with
unchanged field values. -/
theorem records_immutable (cmds : List Command) (orders : List Order) (today : String) :
    ∃ tail, runCommands cmds orders today = orders ++ tail := by
  induction cmds generalizing orders with
  | nil => exact ⟨[], (List.append_nil orders).symm⟩
  | cons c cs ih =>
      obtain ⟨t1, h1⟩ := runCommand_fst c orders today
      obtain ⟨t2, h2⟩ := ih ((runCommand c orders today).1)
      refine ⟨t1 ++ t2, ?_⟩
      have hstep : runCommands (c :: cs) orders today
          = runCommands cs ((runCommand c orders today).1) today := rfl
      rw [hstep, h2, h1, List.append_assoc]

/-! ## Defaulting the date -/

/-- C6: with the date argument omitted, `add` stores and prints `today` (the
current local date, preformatted `YYYY-MM-DD` by `main`), and `daily-total`
defaults its queried date to `today` the same way. -/
theorem default_date_is_today (orders : List Order) (item : String) (quantity : Nat)
    (price : Rat) (today : String) :
    (runCommand (Command.add item quantity price none) orders today).1
        = orders ++ [⟨item, quantity, price, today⟩]
  ∧ (runCommand (Command.add item quantity price none) orders today).2
        = "Order added: " ++ item ++ " x" ++ toString quantity ++ " @ $" ++ fmt2 price
            ++ " on " ++ today
  ∧ (runCommand (Command.dailyTotal none) orders today).2
        = "Total for " ++ today ++ ": $" ++ fmt2 (calculate_daily_total orders today) :=
  ⟨rfl, rfl, rfl⟩

/-! ## Idempotence of the store initialisation -/

/-- C8: `init_db` never alters existing data — on a store whose `orders`
table already exists it is the identity; it only ensures the table exists,
and running it twice is the same as running it once. -/
theorem init_db_preserves (f : DbFile) (x : Option DbFile) (h : f.hasOrdersTable = true) :
    init_db (some f) = f
  ∧ (init_db x).hasOrdersTable = true
  ∧ init_db (some (init_db x)) = init_db x := by
  have hy : ∀ z : Option DbFile, (init_db z).hasOrdersTable = true := by
    intro z
    cases z with
    | none => rfl
    | some g =>
        by_cases hg : g.hasOrdersTable <;>
          simp [init_db, connectionOpen, createTableIfNotExists, hg]
  have hid : ∀ g : DbFile, g.hasOrdersTable = true → init_db (some g) = g := by
    intro g hg
    simp [init_db, connectionOpen, createTableIfNotExists, hg]
  exact ⟨hid f h, hy x, hid _ (hy x)⟩

/-- Witness for C8: a populated existing store is returned unchanged. -/
theorem init_db_preserves_witness :
    init_db (some ⟨true, [⟨"Coffee", 1, (21/10 : Rat), "2024-03-01"⟩]⟩)
      = (⟨true, [⟨"Coffee", 1, (21/10 : Rat), "2024-03-01"⟩]⟩ : DbFile) :=
  (init_db_preserves ⟨true, [⟨"Coffee", 1, (21/10 : Rat), "2024-03-01"⟩]⟩ none rfl).1

/-! ## Console output formats -/

/-- `{:.2}` renders the model price `2.10` as the string `2.10`. -/
theorem fmt2_coffee : fmt2 (21/10 : Rat) = "2.10" := by
  have h1 : round ((21/10 : Rat) * 100) = 210 := by
    rw [round_eq]
    norm_num
  simp only [fmt2, h1]
  rfl

/-- C9: the concrete console scenario: adding Coffee ×1 at 2.10 on
2024-03-01 prints `Order added: Coffee x1 @ $2.10 on 2024-03-01`, and the
daily total for that date then prints `Total for 2024-03-01: $2.10` — the
price and total rendered with two decimals by `fmt2`. -/
theorem console_format_scenario :
    (runCommand (Command.add "Coffee" 1 (21/10) (some "2024-03-01")) [] "2099-01-01").2
        = "Order added: Coffee x1 @ $2.10 on 2024-03-01"
  ∧ (runCommand (Command.dailyTotal (some "2024-03-01"))
        (runCommand (Command.add "Coffee" 1 (21/10) (some "2024-03-01")) [] "2099-01-01").1
        "2099-01-01").2
        = "Total for 2024-03-01: $2.10" := by
  constructor
  · show "Order added: " ++ "Coffee" ++ " x" ++ toString 1 ++ " @ $"
        ++ fmt2 (21/10 : Rat) ++ " on " ++ "2024-03-01"
      = "Order added: Coffee x1 @ $2.10 on 2024-03-01"
    rw [fmt2_coffee]
    rfl
  · have hc : calculate_daily_total
        (add_order [] "Coffee" 1 (21/10) "2024-03-01") "2024-03-01" = (21/10 : Rat) := by
      rw [dailyTotal_eq_sum]
      norm_num [add_order, List.filter, Order.total_cost]
    show "Total for " ++ "2024-03-01" ++ ": $"
        ++ fmt2 (calculate_daily_total (add_order [] "Coffee" 1 (21/10) "2024-03-01")
            "2024-03-01")
      = "Total for 2024-03-01: $2.10"
    rw [hc, fmt2_coffee]
    rfl

/-! ## The export layout -/

/-- C4 as stated is false for the empty store: the csv writer emits the
header only together with the first record, so exporting an empty store
writes an empty file containing no header row. -/
theorem export_empty_store_has_no_header :
    exportContent [] = [] ∧ encodeRecord headerFields ≠ ([] : List Char) :=
  ⟨rfl, by decide⟩

/-- C4 amended: for a nonempty store the export is exactly one header row —
the literal `item_name,quantity,price,date` line — followed by one CSV
record per stored row in store order; for the empty store the export file
is empty. -/
theorem export_layout (orders : List Order) :
    (orders = [] → exportContent orders = [])
  ∧ (orders ≠ [] →
      exportContent orders = encodeRecord headerFields ++ recordsText orders)
  ∧ encodeRecord headerFields = "item_name,quantity,price,date\n".data := by
  refine ⟨fun h => by rw [h]; rfl, fun h => exportContent_eq orders h, by decide⟩

/-- Witness for C4 (amended): a one-row store exports the header line and
that row's record. -/
theorem export_layout_witness :
    exportContent [⟨"Coffee", 1, (21/10 : Rat), "2024-03-01"⟩]
      = encodeRecord headerFields
          ++ recordsText [⟨"Coffee", 1, (21/10 : Rat), "2024-03-01"⟩] :=
  (export_layout [⟨"Coffee", 1, (21/10 : Rat), "2024-03-01"⟩]).2.1 (by simp)

/-! ## Export overwrites the target file -/

/-- C7: on a healthy connection the export truncates the target: whatever
the target file held before — and whatever any earlier export left there —
the written file holds exactly the CSV text of the current rows, and no
other path is touched. -/
theorem export_overwrites (c : Conn) (filepath : String) (fs fs2 : FS)
    (h1 : c.prepareFails = false) (h2 : c.queryFails = false) :
    ∃ g g2, export_to_csv c filepath fs = Except.ok g
      ∧ export_to_csv c filepath fs2 = Except.ok g2
      ∧ g filepath = some (exportContent c.orders)
      ∧ g2 filepath = g filepath
      ∧ (∀ p, p ≠ filepath → g p = fs p) := by
  refine ⟨fileAppend (fileCreate fs filepath) filepath (exportContent c.orders),
          fileAppend (fileCreate fs2 filepath) filepath (exportContent c.orders),
          by simp [export_to_csv, h1, h2], by simp [export_to_csv, h1, h2], ?_, ?_, ?_⟩
  · simp [fileAppend, fileCreate]
  · simp [fileAppend, fileCreate]
  · intro p hp
    simp [fileAppend, fileCreate, hp]

/-- Witness for C7: a concrete export over an absent target and over a
target holding leftover text write the same content. -/
theorem export_overwrites_witness :
    ∃ g g2, export_to_csv ⟨[⟨"Coffee", 1, (21/10 : Rat), "2024-03-01"⟩], false, false⟩
          "orders.csv" (fun _ => none) = Except.ok g
      ∧ export_to_csv ⟨[⟨"Coffee", 1, (21/10 : Rat), "2024-03-01"⟩], false, false⟩
          "orders.csv" (fun _ => some ['x']) = Except.ok g2
      ∧ g "orders.csv"
          = some (exportContent [⟨"Coffee", 1, (21/10 : Rat), "2024-03-01"⟩])
      ∧ g2 "orders.csv" = g "orders.csv"
      ∧ (∀ p, p ≠ "orders.csv" → g p = none) :=
  export_overwrites ⟨[⟨"Coffee", 1, (21/10 : Rat), "2024-03-01"⟩], false, false⟩
    "orders.csv" (fun _ => none) (fun _ => some ['x']) rfl rfl

/-! ## CSV records round-trip -/

/-- Opening quote of a quoted field. -/
theorem parseAux_openQuote (xs cur : List Char) (acc : List (List Char)) :
    parseAux ('"' :: xs) false cur acc = parseAux xs true cur acc := by
  simp [parseAux]

/-- An escaped (doubled) quote inside a quoted field. -/
theorem parseAux_escQuote (xs cur : List Char) (acc : List (List Char)) :
    parseAux ('"' :: '"' :: xs) true cur acc = parseAux xs true ('"' :: cur) acc := by
  simp [parseAux]

/-- Closing quote followed by the field separator. -/
theorem parseAux_closeQuote_comma (xs cur : List Char) (acc : List (List Char)) :
    parseAux ('"' :: ',' :: xs) true cur acc = parseAux (',' :: xs) false cur acc := by
  simp [parseAux]

/-- Closing quote followed by the record terminator. -/
theorem parseAux_closeQuote_newline (xs cur : List Char) (acc : List (List Char)) :
    parseAux ('"' :: '\n' :: xs) true cur acc = parseAux ('\n' :: xs) false cur acc := by
  simp [parseAux]

/-- An ordinary character inside a quoted field. -/
theorem parseAux_quotedChar (c : Char) (xs cur : List Char) (acc : List (List Char))
    (hc : c ≠ '"') :
    parseAux (c :: xs) true cur acc = parseAux xs true (c :: cur) acc := by
  simp [parseAux, hc]

/-- The field separator outside quotes finishes the current field. -/
theorem parseAux_comma (xs cur : List Char) (acc : List (List Char)) :
    parseAux (',' :: xs) false cur acc = parseAux xs false [] (cur.reverse :: acc) := by
  simp [parseAux]

/-- The record terminator at the end of the input finishes the record. -/
theorem parseAux_newline_end (cur : List Char) (acc : List (List Char)) :
    parseAux ['\n'] false cur acc = some ((cur.reverse :: acc).reverse) := by
  simp [parseAux]

/-- An ordinary character outside quotes extends the current field. -/
theorem parseAux_plainChar (c : Char) (xs cur : List Char) (acc : List (List Char))
    (h1 : c ≠ '"') (h2 : c ≠ ',') (h3 : c ≠ '\n') :
    parseAux (c :: xs) false cur acc = parseAux xs false (c :: cur) acc := by
  simp [parseAux, h1, h2, h3]

/-- Scanning the escaped body of a quoted field accumulates exactly the
original field characters. -/
theorem parseAux_escBody (f : List Char) (rest cur : List Char) (acc : List (List Char)) :
    parseAux (escBody f ++ rest) true cur acc
      = parseAux rest true (f.reverse ++ cur) acc := by
  induction f generalizing cur with
  | nil => simp [escBody]
  | cons c f ih =>
      by_cases hc : c = '"'
      · subst hc
        have he : escBody ('"' :: f) ++ rest = '"' :: '"' :: (escBody f ++ rest) := by
          simp [escBody, escChar]
        rw [he, parseAux_escQuote, ih]
        simp
      · have he : escBody (c :: f) ++ rest = c :: (escBody f ++ rest) := by
          simp [escBody, escChar, hc]
        rw [he, parseAux_quotedChar c _ _ _ hc, ih]
        simp

/-- Scanning an unquoted field with no special characters accumulates
exactly its characters. -/
theorem parseAux_plain (f : List Char) :
    ∀ (rest cur : List Char) (acc : List (List Char)),
      (∀ c ∈ f, c ≠ '"' ∧ c ≠ ',' ∧ c ≠ '\n') →
      parseAux (f ++ rest) false cur acc
        = parseAux rest false (f.reverse ++ cur) acc := by
  induction f with
  | nil => intro rest cur acc _; simp
  | cons c f ih =>
      intro rest cur acc hf
      obtain ⟨h1, h2, h3⟩ := hf c (List.mem_cons_self c f)
      rw [List.cons_append, parseAux_plainChar c _ _ _ h1 h2 h3,
        ih rest (c :: cur) acc (fun d hd => hf d (List.mem_cons_of_mem c hd))]
      simp

/-- A field whose encoding needs no quoting has no special characters. -/
theorem not_needsQuote_spec (f : List Char) (hq : ¬needsQuote f = true) :
    ∀ c ∈ f, c ≠ '"' ∧ c ≠ ',' ∧ c ≠ '\n' := by
  intro c hc
  simp only [needsQuote, List.any_eq_true, Bool.or_eq_true, beq_iff_eq, not_exists,
    not_and, not_or] at hq
  have h := hq c hc
  exact ⟨h.1.1.2, h.1.1.1, h.1.2⟩

/-- Reading one encoded field up to the following separator yields the
original field. -/
theorem parseAux_field (f r : List Char) (acc : List (List Char)) :
    parseAux (encodeField f ++ ',' :: r) false [] acc
      = parseAux r false [] (f :: acc) := by
  by_cases hq : needsQuote f
  · have he : encodeField f ++ ',' :: r = '"' :: (escBody f ++ ('"' :: ',' :: r)) := by
      simp [encodeField, hq]
    rw [he, parseAux_openQuote, parseAux_escBody, parseAux_closeQuote_comma, parseAux_comma]
    simp
  · have he : encodeField f ++ ',' :: r = f ++ ',' :: r := by
      simp [encodeField, hq]
    rw [he, parseAux_plain f _ _ _ (not_needsQuote_spec f hq), parseAux_comma]
    simp

/-- Reading the last encoded field and the record terminator finishes the
record with the original field. -/
theorem parseAux_lastField (f : List Char) (acc : List (List Char)) :
    parseAux (encodeField f ++ ['\n']) false [] acc = some ((f :: acc).reverse) := by
  by_cases hq : needsQuote f
  · have he : encodeField f ++ ['\n'] = '"' :: (escBody f ++ ('"' :: '\n' :: [])) := by
      simp [encodeField, hq]
    rw [he, parseAux_openQuote, parseAux_escBody, parseAux_closeQuote_newline,
      parseAux_newline_end]
    simp
  · have he : encodeField f ++ ['\n'] = f ++ ['\n'] := by
      simp [encodeField, hq]
    rw [he, parseAux_plain f _ _ _ (not_needsQuote_spec f hq), parseAux_newline_end]
    simp

/-- Reading a whole encoded record yields the original fields. -/
theorem parse_encoded_fields (fs : List (List Char)) (f : List Char)
    (acc : List (List Char)) :
    parseAux (joinFields ((f :: fs).map encodeField) ++ ['\n']) false [] acc
      = some (acc.reverse ++ f :: fs) := by
  induction fs generalizing f acc with
  | nil =>
      show parseAux (encodeField f ++ ['\n']) false [] acc = _
      rw [parseAux_lastField]
      simp
  | cons f2 fs ih =>
      have he : joinFields ((f :: f2 :: fs).map encodeField) ++ ['\n']
          = encodeField f ++ ',' :: (joinFields ((f2 :: fs).map encodeField) ++ ['\n']) := by
        simp [joinFields]
      rw [he, parseAux_field, ih]
      simp

/-- C10: every stored order is written as exactly one `\n`-terminated CSV
record, and reading that record back yields exactly the four emitted fields
— commas, quotes and newlines in `item_name` or `date` are quoted and
escaped by the writer. -/
theorem record_round_trip (o : Order) :
    parseRecord (encodeRecord (recordFields o)) = some (recordFields o) := by
  have h := parse_encoded_fields [natRepr o.quantity, ratRepr o.price, o.date.data]
    o.item_name.data []
  simpa [parseRecord, encodeRecord, recordFields] using h

end Tracker
